import Mathlib

/-!
Verification development for the Ristretto-style network quantization core
(`src/caffe/ristretto/quantization.cpp`).

The development shallowly embeds the parts of the source the claims concern:

* the integer-length computation of `Quantization::Quantize2DynamicFixedPoint`
  (lines 156-160), idealized over the reals (each IEEE double operation is
  modelled by its exact real counterpart; all concrete inputs used in theorems
  are chosen so that the double computation is exact at them);
* the integer-length lookups `GetIntegerLengthParams` / `GetIntegerLengthIn` /
  `GetIntegerLengthOut` (lines 314-330).  `std::find(first, last, v) - first`
  is the index of the first occurrence, or the container size when the value
  is absent; the subsequent `std::vector::operator[]` access is modelled by
  safe indexing (`List.get?`), which returns `none` exactly when the C++
  access is out of range (out-of-range `operator[]` is undefined behavior and
  raises nothing);
* the per-layer description edit `EditNetDescriptionDynamicFixedPoint`
  (lines 260-312), with protobuf messages rendered as records whose optional
  quantization fields are `Option Int` (`none` = field unset, `set_x v` =
  `some v`) and whose remaining, never-touched protobuf fields are collapsed
  into one opaque `other` component;
* the control flow of `QuantizeNet` (lines 32-51) as an event trace;
* the score accumulation and averaging of `RunForwardBatches` (lines 96-149),
  with float scores idealized as rationals.
-/

/-- `listContainsSub pat l = true` iff `pat` occurs as a contiguous sublist of
`l`.  Helper for modelling C++ `std::string::find(pat) != std::string::npos`. -/
def listContainsSub (pat : List Char) : List Char → Bool
  | [] => pat.isPrefixOf ([] : List Char)
  | c :: rest => pat.isPrefixOf (c :: rest) || listContainsSub pat rest

/-- Models the C++ test `s.find(pat) != string::npos`: `pat` occurs as a
substring of `s`. -/
def strContains (s pat : String) : Bool :=
  listContainsSub pat.toList s.toList

/-- The quantization-parameter protobuf fields written by
`EditNetDescriptionDynamicFixedPoint` (`caffe::QuantizationParameter`).
Optional protobuf fields: `none` means unset (full-precision behavior),
`set_x v` in the source becomes `some v`. -/
structure QuantParam where
  fl_params : Option Int := none
  bw_params : Option Int := none
  fl_layer_in : Option Int := none
  bw_layer_in : Option Int := none
  fl_layer_out : Option Int := none
  bw_layer_out : Option Int := none
deriving DecidableEq

/-- One layer descriptor of a `caffe::NetParameter`: name, type and
quantization config are the fields the core reads or writes; every other
protobuf field of `caffe::LayerParameter` is collapsed into the opaque
component `other`, which the source never touches. -/
structure LayerParameter where
  name : String
  type : String
  quant : QuantParam := {}
  other : String := ""
deriving DecidableEq

/-- The per-layer statistics state of the `Quantization` object after
`Quantize2DynamicFixedPoint` has filled `layer_names_`, `il_in_`, `il_out_`,
`il_params_` (all indexed in parallel). -/
structure QState where
  layer_names : List String
  il_in : List Int
  il_out : List Int
  il_params : List Int

/-- `Quantization::GetIntegerLengthParams` (lines 314-318):
`pos = std::find(layer_names_.begin(), layer_names_.end(), name) - begin()`
(that is, the index of the first occurrence, or `layer_names_.size()` when
`name` is absent), followed by the vector access `il_params_[pos]`.  The
access is modelled safely: `none` exactly when the C++ read is out of range. -/
def getIntegerLengthParams (s : QState) (layer_name : String) : Option Int :=
  s.il_params.get? (s.layer_names.indexOf layer_name)

/-- `Quantization::GetIntegerLengthIn` (lines 320-324), modelled like
`getIntegerLengthParams`. -/
def getIntegerLengthIn (s : QState) (layer_name : String) : Option Int :=
  s.il_in.get? (s.layer_names.indexOf layer_name)

/-- `Quantization::GetIntegerLengthOut` (lines 326-330), modelled like
`getIntegerLengthParams`. -/
def getIntegerLengthOut (s : QState) (layer_name : String) : Option Int :=
  s.il_out.get? (s.layer_names.indexOf layer_name)

/-- Lines 269-273 of the source: the parameter-quantization rewrite of a
convolution layer.  Sets `type` to `"ConvolutionRistretto"`,
`fl_params` to `bw_conv - GetIntegerLengthParams(name)` and `bw_params` to
`bw_conv`. -/
def quantizeConvParams (s : QState) (bw_conv : Int) (L : LayerParameter) :
    Option LayerParameter :=
  match getIntegerLengthParams s L.name with
  | some il => some { L with
      type := "ConvolutionRistretto",
      quant := { L.quant with
        fl_params := some (bw_conv - il), bw_params := some bw_conv } }
  | none => none

/-- Lines 277-284 of the source: the activation-quantization rewrite of a
convolution layer. -/
def quantizeConvActivations (s : QState) (bw_in bw_out : Int)
    (L : LayerParameter) : Option LayerParameter :=
  match getIntegerLengthIn s L.name, getIntegerLengthOut s L.name with
  | some il_i, some il_o => some { L with
      type := "ConvolutionRistretto",
      quant := { L.quant with
        fl_layer_in := some (bw_in - il_i), bw_layer_in := some bw_in,
        fl_layer_out := some (bw_out - il_o), bw_layer_out := some bw_out } }
  | _, _ => none

/-- Lines 293-297 of the source: the parameter-quantization rewrite of an
inner-product layer (`type` becomes `"FcRistretto"`, bit-width `bw_fc`). -/
def quantizeFcParams (s : QState) (bw_fc : Int) (L : LayerParameter) :
    Option LayerParameter :=
  match getIntegerLengthParams s L.name with
  | some il => some { L with
      type := "FcRistretto",
      quant := { L.quant with
        fl_params := some (bw_fc - il), bw_params := some bw_fc } }
  | none => none

/-- Lines 301-308 of the source: the activation-quantization rewrite of an
inner-product layer. -/
def quantizeFcActivations (s : QState) (bw_in bw_out : Int)
    (L : LayerParameter) : Option LayerParameter :=
  match getIntegerLengthIn s L.name, getIntegerLengthOut s L.name with
  | some il_i, some il_o => some { L with
      type := "FcRistretto",
      quant := { L.quant with
        fl_layer_in := some (bw_in - il_i), bw_layer_in := some bw_in,
        fl_layer_out := some (bw_out - il_o), bw_layer_out := some bw_out } }
  | _, _ => none

/-- Lines 267-285 of the source: inside the convolution branch, first the
`net_part.find("Parameters")` guard and rewrite, then (on the updated layer)
the `net_part.find("Activations")` guard and rewrite. -/
def convBlock (s : QState) (net_part : String) (bw_conv bw_in bw_out : Int)
    (L : LayerParameter) : Option LayerParameter :=
  match (if strContains net_part "Parameters"
         then quantizeConvParams s bw_conv L else some L) with
  | none => none
  | some L1 =>
    if strContains net_part "Activations"
    then quantizeConvActivations s bw_in bw_out L1 else some L1

/-- Lines 291-309 of the source: the inner-product analogue of `convBlock`. -/
def fcBlock (s : QState) (net_part : String) (bw_fc bw_in bw_out : Int)
    (L : LayerParameter) : Option LayerParameter :=
  match (if strContains net_part "Parameters"
         then quantizeFcParams s bw_fc L else some L) with
  | none => none
  | some L1 =>
    if strContains net_part "Activations"
    then quantizeFcActivations s bw_in bw_out L1 else some L1

/-- One iteration of the loop of `EditNetDescriptionDynamicFixedPoint`
(lines 263-311) on layer `i`.  The convolution guard (line 265-266) reads the
layer's current type; the inner-product guard (line 288-290) reads the type
*after* the convolution branch may have rewritten it, exactly as the source's
`param->layer(i).type()` re-reads the mutated message. -/
def editLayer (s : QState) (layers_2_quantize net_part : String)
    (bw_conv bw_fc bw_in bw_out : Int) (L : LayerParameter) :
    Option LayerParameter :=
  match (if strContains layers_2_quantize "Convolution" &&
            strContains L.type "Convolution"
         then convBlock s net_part bw_conv bw_in bw_out L else some L) with
  | none => none
  | some L1 =>
    if strContains layers_2_quantize "InnerProduct" &&
       (strContains L1.type "InnerProduct" || strContains L1.type "FcRistretto")
    then fcBlock s net_part bw_fc bw_in bw_out L1 else some L1

/-- `Quantization::EditNetDescriptionDynamicFixedPoint` (lines 260-312): the
layer-indexed loop, each iteration rewriting layer `i` in place and touching
no other layer.  The in-place mutation becomes a structural traversal; a
failed integer-length lookup (out-of-range vector read in the C++) makes the
whole edit fail. -/
def editNetDescriptionDynamicFixedPoint (s : QState)
    (layers_2_quantize net_part : String) (bw_conv bw_fc bw_in bw_out : Int) :
    List LayerParameter → Option (List LayerParameter)
  | [] => some []
  | L :: rest =>
    match editLayer s layers_2_quantize net_part bw_conv bw_fc bw_in bw_out L with
    | none => none
    | some L' =>
      match editNetDescriptionDynamicFixedPoint s layers_2_quantize net_part
          bw_conv bw_fc bw_in bw_out rest with
      | none => none
      | some rest' => some (L' :: rest')

/-- Lines 168-185 of `Quantize2DynamicFixedPoint`: the convolution-parameter
candidate.  `base` is the freshly parsed model description
(`ReadNetParamsFromTextFileOrDie(model_, &param)` re-reads the unchanged model
file, so every candidate starts from the same `base`); the edit arguments are
`("Convolution", "Parameters", bitwidth_weights, -1, -1, -1)`. -/
def convParamsCandidate (s : QState) (base : List LayerParameter)
    (bitwidth_weights : Int) : Option (List LayerParameter) :=
  editNetDescriptionDynamicFixedPoint s "Convolution" "Parameters"
    bitwidth_weights (-1) (-1) (-1) base

/-- Lines 186-200: the fully-connected-parameter candidate, built from the
freshly re-parsed `base` with arguments
`("InnerProduct", "Parameters", -1, bitwidth_weights, -1, -1)`. -/
def fcParamsCandidate (s : QState) (base : List LayerParameter)
    (bitwidth_weights : Int) : Option (List LayerParameter) :=
  editNetDescriptionDynamicFixedPoint s "InnerProduct" "Parameters"
    (-1) bitwidth_weights (-1) (-1) base

/-- Lines 201-216: the activations candidate, built from the freshly
re-parsed `base` with arguments
`("Convolution_and_InnerProduct", "Activations", -1, -1, bw, bw)`. -/
def activationsCandidate (s : QState) (base : List LayerParameter)
    (bitwidth_activations : Int) : Option (List LayerParameter) :=
  editNetDescriptionDynamicFixedPoint s "Convolution_and_InnerProduct"
    "Activations" (-1) (-1) bitwidth_activations bitwidth_activations base

/-- Lines 222-233: the combined candidate, built from the freshly re-parsed
`base` with arguments
`("Convolution_and_InnerProduct", "Parameters_and_Activations",
  bw_conv, bw_fc, bw_in, bw_out)`. -/
def combinedCandidate (s : QState) (base : List LayerParameter)
    (bw_conv bw_fc bw_in bw_out : Int) : Option (List LayerParameter) :=
  editNetDescriptionDynamicFixedPoint s "Convolution_and_InnerProduct"
    "Parameters_and_Activations" bw_conv bw_fc bw_in bw_out base

/-- The externally observable steps of `Quantization::QuantizeNet`
(lines 32-51), in program order. -/
inductive QuantizeNetEvent where
  | checkWritePermissions
  | setGpu
  | runForwardBatchesBaseline
  | quantize2DynamicFixedPoint
  | fatalUnknownTrimmingMode
deriving DecidableEq

/-- The step sequence of `Quantization::QuantizeNet` (lines 32-51):
`CheckWritePermissions`, `SetGpu`, the baseline `RunForwardBatches` call with
`do_stats = true` (lines 37-44), and only then the branch on `trimming_mode_`
(lines 46-50): `Quantize2DynamicFixedPoint()` when it equals
`"dynamic_fixed_point"`, otherwise `LOG(FATAL) << "Unknown trimming mode"`. -/
def quantizeNetTrace (trimming_mode : String) : List QuantizeNetEvent :=
  [QuantizeNetEvent.checkWritePermissions, QuantizeNetEvent.setGpu,
   QuantizeNetEvent.runForwardBatchesBaseline] ++
    (if trimming_mode = "dynamic_fixed_point"
     then [QuantizeNetEvent.quantize2DynamicFixedPoint]
     else [QuantizeNetEvent.fatalUnknownTrimmingMode])

/-- Lines 119-126 of `RunForwardBatches` for a batch `i > 0`: each score of
the batch is added into `test_score` at the same flat position
(`test_score[idx] += score`).  Entries of `test_score` beyond the batch's
length are left as they are (the source only writes positions it visits).
A batch *longer* than `test_score` would make the C++ write out of range
(undefined behavior); the model truncates there, and every theorem below only
uses batches of equal length, where no truncation occurs. -/
def addScores (test_score scores : List ℚ) : List ℚ :=
  (test_score.zipWith (· + ·) scores) ++ test_score.drop scores.length

/-- The contents of the `test_score` vector of `RunForwardBatches`
(lines 100-132) after the first `n` loop iterations: batch `0` pushes all of
its scores (lines 121-123), every later batch accumulates element-wise
(line 125).  `result i` is the flattened output of the forward pass on batch
`i` (the concatenation over the output blobs `j` of their elements `k`, in
loop order). -/
def testScoreAfter (result : ℕ → List ℚ) : ℕ → List ℚ
  | 0 => []
  | i + 1 => if i = 0 then result 0 else addScores (testScoreAfter result i) (result i)

/-- Line 148 of `RunForwardBatches`:
`*accuracy = test_score[score_number] / iterations`.  The vector access is
modelled safely: `none` exactly when `score_number` is out of range for the
accumulated `test_score` (as it is for every `score_number` when
`iterations = 0`, since then no batch ever pushed a score). -/
def runForwardBatchesAccuracy (result : ℕ → List ℚ) (iterations : ℕ)
    (score_number : ℕ) : Option ℚ :=
  ((testScoreAfter result iterations).get? score_number).map
    (fun x => x / (iterations : ℚ))

/-- Line 157 of `Quantize2DynamicFixedPoint`:
`il_in_.push_back((int)ceil(log2(max_in_[i]+1e-8+1)))`, idealized over ℝ. -/
noncomputable def il_in_entry (max_in : ℝ) : ℤ :=
  ⌈Real.logb 2 (max_in + 1e-8 + 1)⌉

/-- Line 158 of `Quantize2DynamicFixedPoint`:
`il_out_.push_back((int)ceil(log2(max_out_[i]+1e-8+1)))`, idealized over ℝ. -/
noncomputable def il_out_entry (max_out : ℝ) : ℤ :=
  ⌈Real.logb 2 (max_out + 1e-8 + 1)⌉

/-- Line 159 of `Quantize2DynamicFixedPoint`:
`il_params_.push_back((int)ceil(log2(max_params_[i])+1e-8+1))`, idealized
over ℝ.  Note the parenthesis placement of the source: `+1e-8+1` is added to
the *result* of `log2`, unlike in lines 157-158 where it is added to the
argument. -/
noncomputable def il_params_entry (max_params : ℝ) : ℤ :=
  ⌈Real.logb 2 max_params + 1e-8 + 1⌉

/-- Modelled from the spec (§3, §8): the claimed integer-length formula
`ceil(log2(max_abs_value + ε + 1))` with `ε = 1e-8`, to be compared with the
three source lines above. -/
noncomputable def integer_length_claimed (m : ℝ) : ℤ :=
  ⌈Real.logb 2 (m + 1e-8 + 1)⌉

/-! ### Concrete substring facts about the fixed strings of the source -/

theorem cr_contains_conv : strContains "ConvolutionRistretto" "Convolution" = true := by decide

theorem cr_not_ip : strContains "ConvolutionRistretto" "InnerProduct" = false := by decide

theorem cr_not_fcr : strContains "ConvolutionRistretto" "FcRistretto" = false := by decide

theorem fcr_not_conv : strContains "FcRistretto" "Convolution" = false := by decide

theorem fcr_not_ip : strContains "FcRistretto" "InnerProduct" = false := by decide

theorem fcr_contains_fcr : strContains "FcRistretto" "FcRistretto" = true := by decide

/-! ### Characterizations of the four per-aspect rewrites -/

section EditLemmas

variable (s : QState) (l2q np : String) (a b c d : Int)

theorem convBlock_no_aspect (hP : strContains np "Parameters" = false)
    (hA : strContains np "Activations" = false) (L : LayerParameter) :
    convBlock s np a c d L = some L := by
  simp [convBlock, hP, hA]

theorem fcBlock_no_aspect (hP : strContains np "Parameters" = false)
    (hA : strContains np "Activations" = false) (L : LayerParameter) :
    fcBlock s np b c d L = some L := by
  simp [fcBlock, hP, hA]

theorem convBlock_name_other {L L1 : LayerParameter}
    (h : convBlock s np a c d L = some L1) :
    L1.name = L.name ∧ L1.other = L.other := by
  unfold convBlock at h
  split at h
  · exact absurd h (by simp)
  · rename_i L' hL'
    split at h
    · unfold quantizeConvActivations at h
      split at h
      · rename_i il_i il_o hi ho
        simp at h
        subst h
        split at hL'
        · unfold quantizeConvParams at hL'
          split at hL'
          · simp at hL'; subst hL'; exact ⟨rfl, rfl⟩
          · exact absurd hL' (by simp)
        · simp at hL'; subst hL'; exact ⟨rfl, rfl⟩
      · exact absurd h (by simp)
    · simp at h
      subst h
      split at hL'
      · unfold quantizeConvParams at hL'
        split at hL'
        · simp at hL'; subst hL'; exact ⟨rfl, rfl⟩
        · exact absurd hL' (by simp)
      · simp at hL'; subst hL'; exact ⟨rfl, rfl⟩

theorem quantizeConvParams_eq {L L' : LayerParameter}
    (h : quantizeConvParams s a L = some L') :
    ∃ il, getIntegerLengthParams s L.name = some il ∧
      L' = { L with
        type := "ConvolutionRistretto",
        quant := { L.quant with
          fl_params := some (a - il), bw_params := some a } } := by
  unfold quantizeConvParams at h
  split at h
  · rename_i il hil
    simp at h
    exact ⟨il, hil, h.symm⟩
  · exact absurd h (by simp)

theorem quantizeFcParams_eq {L L' : LayerParameter}
    (h : quantizeFcParams s b L = some L') :
    ∃ il, getIntegerLengthParams s L.name = some il ∧
      L' = { L with
        type := "FcRistretto",
        quant := { L.quant with
          fl_params := some (b - il), bw_params := some b } } := by
  unfold quantizeFcParams at h
  split at h
  · rename_i il hil
    simp at h
    exact ⟨il, hil, h.symm⟩
  · exact absurd h (by simp)

theorem quantizeConvActivations_eq {L L' : LayerParameter}
    (h : quantizeConvActivations s c d L = some L') :
    ∃ il_i il_o, getIntegerLengthIn s L.name = some il_i ∧
      getIntegerLengthOut s L.name = some il_o ∧
      L' = { L with
        type := "ConvolutionRistretto",
        quant := { L.quant with
          fl_layer_in := some (c - il_i), bw_layer_in := some c,
          fl_layer_out := some (d - il_o), bw_layer_out := some d } } := by
  unfold quantizeConvActivations at h
  split at h
  · rename_i il_i il_o hi ho
    simp at h
    exact ⟨il_i, il_o, hi, ho, h.symm⟩
  · exact absurd h (by simp)

theorem quantizeFcActivations_eq {L L' : LayerParameter}
    (h : quantizeFcActivations s c d L = some L') :
    ∃ il_i il_o, getIntegerLengthIn s L.name = some il_i ∧
      getIntegerLengthOut s L.name = some il_o ∧
      L' = { L with
        type := "FcRistretto",
        quant := { L.quant with
          fl_layer_in := some (c - il_i), bw_layer_in := some c,
          fl_layer_out := some (d - il_o), bw_layer_out := some d } } := by
  unfold quantizeFcActivations at h
  split at h
  · rename_i il_i il_o hi ho
    simp at h
    exact ⟨il_i, il_o, hi, ho, h.symm⟩
  · exact absurd h (by simp)

end EditLemmas

/-! ### Block-level lemmas: resulting types, idempotence -/

section BlockLemmas

variable (s : QState) (np : String) (a b c d : Int)

/-- When any aspect is requested, the convolution branch always leaves the
layer typed `"ConvolutionRistretto"`. -/
theorem convBlock_type {L L1 : LayerParameter} (h : convBlock s np a c d L = some L1)
    (hPA : strContains np "Parameters" = true ∨ strContains np "Activations" = true) :
    L1.type = "ConvolutionRistretto" := by
  unfold convBlock at h
  split at h
  · exact absurd h (by simp)
  · rename_i L0 hL0
    by_cases hA : strContains np "Activations" = true
    · rw [if_pos hA] at h
      obtain ⟨_, _, _, _, hL1⟩ := quantizeConvActivations_eq s c d h
      rw [hL1]
    · rw [if_neg hA] at h
      simp at h
      subst h
      rcases hPA with hP | hP
      · rw [if_pos hP] at hL0
        obtain ⟨_, _, hL1⟩ := quantizeConvParams_eq s a hL0
        rw [hL1]
      · exact absurd hP hA

/-- When any aspect is requested, the inner-product branch always leaves the
layer typed `"FcRistretto"`. -/
theorem fcBlock_type {L L1 : LayerParameter} (h : fcBlock s np b c d L = some L1)
    (hPA : strContains np "Parameters" = true ∨ strContains np "Activations" = true) :
    L1.type = "FcRistretto" := by
  unfold fcBlock at h
  split at h
  · exact absurd h (by simp)
  · rename_i L0 hL0
    by_cases hA : strContains np "Activations" = true
    · rw [if_pos hA] at h
      obtain ⟨_, _, _, _, hL1⟩ := quantizeFcActivations_eq s c d h
      rw [hL1]
    · rw [if_neg hA] at h
      simp at h
      subst h
      rcases hPA with hP | hP
      · rw [if_pos hP] at hL0
        obtain ⟨_, _, hL1⟩ := quantizeFcParams_eq s b hL0
        rw [hL1]
      · exact absurd hP hA

/-- Applying the convolution branch to its own output rewrites every field
with the same value: the lookups go by the unchanged layer name and every
assigned field already holds the assigned value. -/
theorem convBlock_idem {L L1 : LayerParameter} (h : convBlock s np a c d L = some L1) :
    convBlock s np a c d L1 = some L1 := by
  unfold convBlock at h ⊢
  by_cases hP : strContains np "Parameters" = true
  · rw [if_pos hP] at h ⊢
    by_cases hA : strContains np "Activations" = true
    · cases hq : quantizeConvParams s a L with
      | none => rw [hq] at h; simp at h
      | some LP =>
        rw [hq] at h
        simp only at h
        rw [if_pos hA] at h
        obtain ⟨il, hil, hLP⟩ := quantizeConvParams_eq s a hq
        obtain ⟨il_i, il_o, hi, ho, hL1⟩ := quantizeConvActivations_eq s c d h
        subst hLP
        subst hL1
        simp [quantizeConvParams, quantizeConvActivations, hil, hi, ho]
    · cases hq : quantizeConvParams s a L with
      | none => rw [hq] at h; simp at h
      | some LP =>
        rw [hq] at h
        simp only at h
        rw [if_neg hA] at h
        simp at h
        subst h
        obtain ⟨il, hil, hLP⟩ := quantizeConvParams_eq s a hq
        subst hLP
        simp [quantizeConvParams, hil]
        exact fun hA2 => absurd hA2 hA
  · rw [if_neg hP] at h ⊢
    simp only at h ⊢
    by_cases hA : strContains np "Activations" = true
    · rw [if_pos hA] at h ⊢
      obtain ⟨il_i, il_o, hi, ho, hL1⟩ := quantizeConvActivations_eq s c d h
      subst hL1
      simp [quantizeConvActivations, hi, ho]
    · rw [if_neg hA] at h ⊢

/-- Inner-product analogue of `convBlock_idem`. -/
theorem fcBlock_idem {L L1 : LayerParameter} (h : fcBlock s np b c d L = some L1) :
    fcBlock s np b c d L1 = some L1 := by
  unfold fcBlock at h ⊢
  by_cases hP : strContains np "Parameters" = true
  · rw [if_pos hP] at h ⊢
    by_cases hA : strContains np "Activations" = true
    · cases hq : quantizeFcParams s b L with
      | none => rw [hq] at h; simp at h
      | some LP =>
        rw [hq] at h
        simp only at h
        rw [if_pos hA] at h
        obtain ⟨il, hil, hLP⟩ := quantizeFcParams_eq s b hq
        obtain ⟨il_i, il_o, hi, ho, hL1⟩ := quantizeFcActivations_eq s c d h
        subst hLP
        subst hL1
        simp [quantizeFcParams, quantizeFcActivations, hil, hi, ho]
    · cases hq : quantizeFcParams s b L with
      | none => rw [hq] at h; simp at h
      | some LP =>
        rw [hq] at h
        simp only at h
        rw [if_neg hA] at h
        simp at h
        subst h
        obtain ⟨il, hil, hLP⟩ := quantizeFcParams_eq s b hq
        subst hLP
        simp [quantizeFcParams, hil]
        exact fun hA2 => absurd hA2 hA
  · rw [if_neg hP] at h ⊢
    simp only at h ⊢
    by_cases hA : strContains np "Activations" = true
    · rw [if_pos hA] at h ⊢
      obtain ⟨il_i, il_o, hi, ho, hL1⟩ := quantizeFcActivations_eq s c d h
      subst hL1
      simp [quantizeFcActivations, hi, ho]
    · rw [if_neg hA] at h ⊢

end BlockLemmas

/-! ### Layer-level lemmas -/

section EditLayerLemmas

variable (s : QState) (l2q np : String) (a b c d : Int)

/-- When neither `"Parameters"` nor `"Activations"` occurs in `net_part`,
one loop iteration leaves the layer unchanged. -/
theorem editLayer_id_of_no_aspect (hP : strContains np "Parameters" = false)
    (hA : strContains np "Activations" = false) (L : LayerParameter) :
    editLayer s l2q np a b c d L = some L := by
  unfold editLayer
  by_cases h1 : (strContains l2q "Convolution" && strContains L.type "Convolution") = true
  · rw [if_pos h1, convBlock_no_aspect s np a c d hP hA]
    simp only
    by_cases h2 : (strContains l2q "InnerProduct" &&
        (strContains L.type "InnerProduct" || strContains L.type "FcRistretto")) = true
    · rw [if_pos h2, fcBlock_no_aspect s np b c d hP hA]
    · rw [if_neg h2]
  · rw [if_neg h1]
    simp only
    by_cases h2 : (strContains l2q "InnerProduct" &&
        (strContains L.type "InnerProduct" || strContains L.type "FcRistretto")) = true
    · rw [if_pos h2, fcBlock_no_aspect s np b c d hP hA]
    · rw [if_neg h2]

/-- One loop iteration applied to its own output reproduces that output:
the rewritten types `"ConvolutionRistretto"` / `"FcRistretto"` still satisfy
(or still fail) the same guards, and every assignment is repeated with the
same values. -/
theorem editLayer_idem {L L' : LayerParameter}
    (h : editLayer s l2q np a b c d L = some L') :
    editLayer s l2q np a b c d L' = some L' := by
  by_cases hboth : strContains np "Parameters" = false ∧ strContains np "Activations" = false
  · obtain ⟨hP, hA⟩ := hboth
    rw [editLayer_id_of_no_aspect s l2q np a b c d hP hA L] at h
    obtain rfl : L = L' := by injection h
    exact editLayer_id_of_no_aspect s l2q np a b c d hP hA L
  · have hPA' : strContains np "Parameters" = true ∨ strContains np "Activations" = true := by
      rcases Bool.eq_false_or_eq_true (strContains np "Parameters") with hp | hp
      · exact Or.inl hp
      · rcases Bool.eq_false_or_eq_true (strContains np "Activations") with ha | ha
        · exact Or.inr ha
        · exact absurd ⟨hp, ha⟩ hboth
    unfold editLayer at h ⊢
    by_cases h1 : (strContains l2q "Convolution" && strContains L.type "Convolution") = true
    · rw [if_pos h1] at h
      cases hcb : convBlock s np a c d L with
      | none => rw [hcb] at h; simp at h
      | some L1 =>
        rw [hcb] at h
        simp only at h
        have htype : L1.type = "ConvolutionRistretto" := convBlock_type s np a c d hcb hPA'
        have h2 : (strContains l2q "InnerProduct" &&
            (strContains L1.type "InnerProduct" || strContains L1.type "FcRistretto")) = false := by
          rw [htype, cr_not_ip, cr_not_fcr]
          simp
        rw [h2] at h
        simp at h
        subst h
        have h1' := h1
        rw [Bool.and_eq_true] at h1'
        have hc1' : (strContains l2q "Convolution" && strContains L1.type "Convolution") = true := by
          rw [htype, cr_contains_conv, h1'.1]
          rfl
        rw [if_pos hc1', convBlock_idem s np a c d hcb]
        simp only
        rw [h2]
        simp
    · rw [if_neg h1] at h
      simp only at h
      by_cases h2 : (strContains l2q "InnerProduct" &&
          (strContains L.type "InnerProduct" || strContains L.type "FcRistretto")) = true
      · rw [if_pos h2] at h
        have htype : L'.type = "FcRistretto" := fcBlock_type s np b c d h hPA'
        have h2' := h2
        rw [Bool.and_eq_true] at h2'
        have hIP : strContains l2q "InnerProduct" = true := h2'.1
        have hc1' : (strContains l2q "Convolution" && strContains L'.type "Convolution") = false := by
          rw [htype, fcr_not_conv]
          simp
        rw [hc1']
        simp only [Bool.false_eq_true, if_false]
        have hc2' : (strContains l2q "InnerProduct" &&
            (strContains L'.type "InnerProduct" || strContains L'.type "FcRistretto")) = true := by
          rw [htype, fcr_not_ip, fcr_contains_fcr, hIP]
          rfl
        rw [if_pos hc2']
        exact fcBlock_idem s np b c d h
      · rw [if_neg h2] at h
        obtain rfl : L = L' := by injection h
        rw [if_neg h1]
        simp only
        rw [if_neg h2]

/-- Inner-product analogue of `convBlock_name_other`. -/
theorem fcBlock_name_other {L L1 : LayerParameter}
    (h : fcBlock s np b c d L = some L1) :
    L1.name = L.name ∧ L1.other = L.other := by
  unfold fcBlock at h
  split at h
  · exact absurd h (by simp)
  · rename_i L' hL'
    split at h
    · obtain ⟨_, _, _, _, hL1⟩ := quantizeFcActivations_eq s c d h
      subst hL1
      split at hL'
      · obtain ⟨_, _, hL0⟩ := quantizeFcParams_eq s b hL'
        subst hL0
        exact ⟨rfl, rfl⟩
      · obtain rfl : L = L' := by injection hL'
        exact ⟨rfl, rfl⟩
    · obtain rfl : L' = L1 := by injection h
      split at hL'
      · obtain ⟨_, _, hL0⟩ := quantizeFcParams_eq s b hL'
        subst hL0
        exact ⟨rfl, rfl⟩
      · obtain rfl : L = L' := by injection hL'
        exact ⟨rfl, rfl⟩

/-- One loop iteration only ever writes the `type` and quantization fields:
`name` and the opaque remainder of the layer descriptor are preserved. -/
theorem editLayer_name_other {L L' : LayerParameter}
    (h : editLayer s l2q np a b c d L = some L') :
    L'.name = L.name ∧ L'.other = L.other := by
  unfold editLayer at h
  split at h
  · exact absurd h (by simp)
  · rename_i L1 hL1
    have step1 : L1.name = L.name ∧ L1.other = L.other := by
      split at hL1
      · exact convBlock_name_other s np a c d hL1
      · obtain rfl : L = L1 := by injection hL1
        exact ⟨rfl, rfl⟩
    have step2 : L'.name = L1.name ∧ L'.other = L1.other := by
      split at h
      · exact fcBlock_name_other s np b c d h
      · obtain rfl : L1 = L' := by injection h
        exact ⟨rfl, rfl⟩
    exact ⟨step2.1.trans step1.1, step2.2.trans step1.2⟩

/-- A layer matching neither the convolution guard nor the inner-product
guard passes through one loop iteration unchanged. -/
theorem editLayer_no_match {L : LayerParameter}
    (h1 : (strContains l2q "Convolution" && strContains L.type "Convolution") = false)
    (h2 : (strContains l2q "InnerProduct" &&
      (strContains L.type "InnerProduct" || strContains L.type "FcRistretto")) = false) :
    editLayer s l2q np a b c d L = some L := by
  unfold editLayer
  rw [h1]
  simp only [Bool.false_eq_true, if_false]
  rw [h2]
  simp

end EditLayerLemmas

/-! ### List-level lemmas about the whole edit -/

section NetLemmas

variable (s : QState) (l2q np : String) (a b c d : Int)

/-- The loop edits layer `i` in place from layer `i` of the input and from
nothing else: position-wise correspondence between input and output. -/
theorem editNet_get? :
    ∀ (base out : List LayerParameter),
      editNetDescriptionDynamicFixedPoint s l2q np a b c d base = some out →
      ∀ (i : ℕ) (L : LayerParameter), base.get? i = some L →
        ∃ L', out.get? i = some L' ∧ editLayer s l2q np a b c d L = some L'
  | [], _, _, i, L, hL => by simp at hL
  | M :: rest, out, h, i, L, hL => by
    unfold editNetDescriptionDynamicFixedPoint at h
    cases hM : editLayer s l2q np a b c d M with
    | none => rw [hM] at h; simp at h
    | some M' =>
      rw [hM] at h
      simp only at h
      cases hR : editNetDescriptionDynamicFixedPoint s l2q np a b c d rest with
      | none => rw [hR] at h; simp at h
      | some rest' =>
        rw [hR] at h
        simp only at h
        obtain rfl : M' :: rest' = out := by injection h
        cases i with
        | zero =>
          obtain rfl : M = L := by injection hL
          exact ⟨M', rfl, hM⟩
        | succ n =>
          simp only [List.get?] at hL ⊢
          exact editNet_get? rest rest' hR n L hL

/-- The loop never adds or removes layers. -/
theorem editNet_length :
    ∀ (base out : List LayerParameter),
      editNetDescriptionDynamicFixedPoint s l2q np a b c d base = some out →
      out.length = base.length
  | [], out, h => by
    obtain rfl : [] = out := by injection h
    rfl
  | M :: rest, out, h => by
    unfold editNetDescriptionDynamicFixedPoint at h
    cases hM : editLayer s l2q np a b c d M with
    | none => rw [hM] at h; simp at h
    | some M' =>
      rw [hM] at h
      simp only at h
      cases hR : editNetDescriptionDynamicFixedPoint s l2q np a b c d rest with
      | none => rw [hR] at h; simp at h
      | some rest' =>
        rw [hR] at h
        simp only at h
        obtain rfl : M' :: rest' = out := by injection h
        simp [editNet_length rest rest' hR]

/-- The whole edit applied to its own output reproduces that output. -/
theorem editNet_idem :
    ∀ (base out : List LayerParameter),
      editNetDescriptionDynamicFixedPoint s l2q np a b c d base = some out →
      editNetDescriptionDynamicFixedPoint s l2q np a b c d out = some out
  | [], out, h => by
    obtain rfl : [] = out := by injection h
    rfl
  | M :: rest, out, h => by
    unfold editNetDescriptionDynamicFixedPoint at h
    cases hM : editLayer s l2q np a b c d M with
    | none => rw [hM] at h; simp at h
    | some M' =>
      rw [hM] at h
      simp only at h
      cases hR : editNetDescriptionDynamicFixedPoint s l2q np a b c d rest with
      | none => rw [hR] at h; simp at h
      | some rest' =>
        rw [hR] at h
        simp only at h
        obtain rfl : M' :: rest' = out := by injection h
        unfold editNetDescriptionDynamicFixedPoint
        rw [editLayer_idem s l2q np a b c d hM]
        simp only
        rw [editNet_idem rest rest' hR]

end NetLemmas

/-! ### Field-value lemmas -/

section FieldLemmas

variable (s : QState) (l2q np : String) (a b c d : Int)

/-- With the `"Parameters"` aspect requested, the convolution branch writes
`fl_params = bw_conv - GetIntegerLengthParams(name)` and `bw_params = bw_conv`. -/
theorem convBlock_params_field {L L1 : LayerParameter}
    (h : convBlock s np a c d L = some L1) (hP : strContains np "Parameters" = true) :
    ∃ il, getIntegerLengthParams s L.name = some il ∧
      L1.quant.fl_params = some (a - il) ∧ L1.quant.bw_params = some a := by
  unfold convBlock at h
  rw [if_pos hP] at h
  cases hq : quantizeConvParams s a L with
  | none => rw [hq] at h; simp at h
  | some LP =>
    rw [hq] at h
    simp only at h
    obtain ⟨il, hil, hLP⟩ := quantizeConvParams_eq s a hq
    refine ⟨il, hil, ?_⟩
    split at h
    · obtain ⟨il_i, il_o, hi, ho, hL1⟩ := quantizeConvActivations_eq s c d h
      subst hL1
      subst hLP
      exact ⟨rfl, rfl⟩
    · obtain rfl : LP = L1 := by injection h
      subst hLP
      exact ⟨rfl, rfl⟩

/-- With the `"Activations"` aspect requested, the convolution branch writes
the four activation fields from the same bit-widths and the layer's
integer-length lookups. -/
theorem convBlock_acts_field {L L1 : LayerParameter}
    (h : convBlock s np a c d L = some L1) (hA : strContains np "Activations" = true) :
    ∃ il_i il_o, getIntegerLengthIn s L.name = some il_i ∧
      getIntegerLengthOut s L.name = some il_o ∧
      L1.quant.fl_layer_in = some (c - il_i) ∧ L1.quant.bw_layer_in = some c ∧
      L1.quant.fl_layer_out = some (d - il_o) ∧ L1.quant.bw_layer_out = some d := by
  unfold convBlock at h
  split at h
  · exact absurd h (by simp)
  · rename_i L0 hL0
    rw [if_pos hA] at h
    have hname : L0.name = L.name := by
      split at hL0
      · obtain ⟨_, _, hL0'⟩ := quantizeConvParams_eq s a hL0
        subst hL0'
        rfl
      · obtain rfl : L = L0 := by injection hL0
        rfl
    obtain ⟨il_i, il_o, hi, ho, hL1⟩ := quantizeConvActivations_eq s c d h
    rw [hname] at hi ho
    subst hL1
    exact ⟨il_i, il_o, hi, ho, rfl, rfl, rfl, rfl⟩

/-- Inner-product analogue of `convBlock_params_field` (bit-width `bw_fc`). -/
theorem fcBlock_params_field {L L1 : LayerParameter}
    (h : fcBlock s np b c d L = some L1) (hP : strContains np "Parameters" = true) :
    ∃ il, getIntegerLengthParams s L.name = some il ∧
      L1.quant.fl_params = some (b - il) ∧ L1.quant.bw_params = some b := by
  unfold fcBlock at h
  rw [if_pos hP] at h
  cases hq : quantizeFcParams s b L with
  | none => rw [hq] at h; simp at h
  | some LP =>
    rw [hq] at h
    simp only at h
    obtain ⟨il, hil, hLP⟩ := quantizeFcParams_eq s b hq
    refine ⟨il, hil, ?_⟩
    split at h
    · obtain ⟨il_i, il_o, hi, ho, hL1⟩ := quantizeFcActivations_eq s c d h
      subst hL1
      subst hLP
      exact ⟨rfl, rfl⟩
    · obtain rfl : LP = L1 := by injection h
      subst hLP
      exact ⟨rfl, rfl⟩

/-- Inner-product analogue of `convBlock_acts_field`. -/
theorem fcBlock_acts_field {L L1 : LayerParameter}
    (h : fcBlock s np b c d L = some L1) (hA : strContains np "Activations" = true) :
    ∃ il_i il_o, getIntegerLengthIn s L.name = some il_i ∧
      getIntegerLengthOut s L.name = some il_o ∧
      L1.quant.fl_layer_in = some (c - il_i) ∧ L1.quant.bw_layer_in = some c ∧
      L1.quant.fl_layer_out = some (d - il_o) ∧ L1.quant.bw_layer_out = some d := by
  unfold fcBlock at h
  split at h
  · exact absurd h (by simp)
  · rename_i L0 hL0
    rw [if_pos hA] at h
    have hname : L0.name = L.name := by
      split at hL0
      · obtain ⟨_, _, hL0'⟩ := quantizeFcParams_eq s b hL0
        subst hL0'
        rfl
      · obtain rfl : L = L0 := by injection hL0
        rfl
    obtain ⟨il_i, il_o, hi, ho, hL1⟩ := quantizeFcActivations_eq s c d h
    rw [hname] at hi ho
    subst hL1
    exact ⟨il_i, il_o, hi, ho, rfl, rfl, rfl, rfl⟩

/-- Without the `"Parameters"` aspect, the convolution branch leaves the two
parameter-quantization fields unchanged. -/
theorem convBlock_no_params {L L1 : LayerParameter}
    (h : convBlock s np a c d L = some L1) (hP : strContains np "Parameters" = false) :
    L1.quant.fl_params = L.quant.fl_params ∧ L1.quant.bw_params = L.quant.bw_params := by
  unfold convBlock at h
  rw [hP] at h
  simp only [Bool.false_eq_true, if_false] at h
  split at h
  · obtain ⟨il_i, il_o, hi, ho, hL1⟩ := quantizeConvActivations_eq s c d h
    subst hL1
    exact ⟨rfl, rfl⟩
  · obtain rfl : L = L1 := by injection h
    exact ⟨rfl, rfl⟩

/-- Without the `"Parameters"` aspect, the inner-product branch leaves the
two parameter-quantization fields unchanged. -/
theorem fcBlock_no_params {L L1 : LayerParameter}
    (h : fcBlock s np b c d L = some L1) (hP : strContains np "Parameters" = false) :
    L1.quant.fl_params = L.quant.fl_params ∧ L1.quant.bw_params = L.quant.bw_params := by
  unfold fcBlock at h
  rw [hP] at h
  simp only [Bool.false_eq_true, if_false] at h
  split at h
  · obtain ⟨il_i, il_o, hi, ho, hL1⟩ := quantizeFcActivations_eq s c d h
    subst hL1
    exact ⟨rfl, rfl⟩
  · obtain rfl : L = L1 := by injection h
    exact ⟨rfl, rfl⟩

/-- Without the `"Parameters"` aspect, one loop iteration never writes
`fl_params` or `bw_params`. -/
theorem editLayer_no_params {L L' : LayerParameter}
    (h : editLayer s l2q np a b c d L = some L')
    (hP : strContains np "Parameters" = false) :
    L'.quant.fl_params = L.quant.fl_params ∧ L'.quant.bw_params = L.quant.bw_params := by
  unfold editLayer at h
  split at h
  · exact absurd h (by simp)
  · rename_i L1 hL1
    have step1 : L1.quant.fl_params = L.quant.fl_params ∧
        L1.quant.bw_params = L.quant.bw_params := by
      split at hL1
      · exact convBlock_no_params s np a c d hL1 hP
      · obtain rfl : L = L1 := by injection hL1
        exact ⟨rfl, rfl⟩
    have step2 : L'.quant.fl_params = L1.quant.fl_params ∧
        L'.quant.bw_params = L1.quant.bw_params := by
      split at h
      · exact fcBlock_no_params s np b c d h hP
      · obtain rfl : L1 = L' := by injection h
        exact ⟨rfl, rfl⟩
    exact ⟨step2.1.trans step1.1, step2.2.trans step1.2⟩

end FieldLemmas

section EditLayerFields

variable (s : QState) (l2q np : String) (a b c d : Int)

/-- Convolution-matching layer, `"Parameters"` aspect: the final layer holds
`fl_params = bw_conv - il` and `bw_params = bw_conv` (the inner-product guard
cannot re-fire on the rewritten type `"ConvolutionRistretto"`). -/
theorem editLayer_conv_params_field {L L' : LayerParameter}
    (h : editLayer s l2q np a b c d L = some L')
    (hc : (strContains l2q "Convolution" && strContains L.type "Convolution") = true)
    (hP : strContains np "Parameters" = true) :
    ∃ il, getIntegerLengthParams s L.name = some il ∧
      L'.quant.fl_params = some (a - il) ∧ L'.quant.bw_params = some a := by
  unfold editLayer at h
  rw [if_pos hc] at h
  cases hcb : convBlock s np a c d L with
  | none => rw [hcb] at h; simp at h
  | some L1 =>
    rw [hcb] at h
    simp only at h
    have htype : L1.type = "ConvolutionRistretto" := convBlock_type s np a c d hcb (Or.inl hP)
    have h2 : (strContains l2q "InnerProduct" &&
        (strContains L1.type "InnerProduct" || strContains L1.type "FcRistretto")) = false := by
      rw [htype, cr_not_ip, cr_not_fcr]
      simp
    rw [h2] at h
    simp at h
    subst h
    exact convBlock_params_field s np a c d hcb hP

/-- Convolution-matching layer, `"Activations"` aspect: the final layer holds
the four activation fields written from `bw_in` / `bw_out`. -/
theorem editLayer_conv_acts_field {L L' : LayerParameter}
    (h : editLayer s l2q np a b c d L = some L')
    (hc : (strContains l2q "Convolution" && strContains L.type "Convolution") = true)
    (hA : strContains np "Activations" = true) :
    ∃ il_i il_o, getIntegerLengthIn s L.name = some il_i ∧
      getIntegerLengthOut s L.name = some il_o ∧
      L'.quant.fl_layer_in = some (c - il_i) ∧ L'.quant.bw_layer_in = some c ∧
      L'.quant.fl_layer_out = some (d - il_o) ∧ L'.quant.bw_layer_out = some d := by
  unfold editLayer at h
  rw [if_pos hc] at h
  cases hcb : convBlock s np a c d L with
  | none => rw [hcb] at h; simp at h
  | some L1 =>
    rw [hcb] at h
    simp only at h
    have htype : L1.type = "ConvolutionRistretto" := convBlock_type s np a c d hcb (Or.inr hA)
    have h2 : (strContains l2q "InnerProduct" &&
        (strContains L1.type "InnerProduct" || strContains L1.type "FcRistretto")) = false := by
      rw [htype, cr_not_ip, cr_not_fcr]
      simp
    rw [h2] at h
    simp at h
    subst h
    exact convBlock_acts_field s np a c d hcb hA

/-- Inner-product-matching layer, `"Parameters"` aspect: `fl_params` and
`bw_params` are written with the fully-connected bit-width `bw_fc`. -/
theorem editLayer_fc_params_field {L L' : LayerParameter}
    (h : editLayer s l2q np a b c d L = some L')
    (hc1 : (strContains l2q "Convolution" && strContains L.type "Convolution") = false)
    (hc2 : (strContains l2q "InnerProduct" &&
      (strContains L.type "InnerProduct" || strContains L.type "FcRistretto")) = true)
    (hP : strContains np "Parameters" = true) :
    ∃ il, getIntegerLengthParams s L.name = some il ∧
      L'.quant.fl_params = some (b - il) ∧ L'.quant.bw_params = some b := by
  unfold editLayer at h
  rw [hc1] at h
  simp only [Bool.false_eq_true, if_false] at h
  rw [if_pos hc2] at h
  exact fcBlock_params_field s np b c d h hP

/-- Inner-product-matching layer, `"Activations"` aspect. -/
theorem editLayer_fc_acts_field {L L' : LayerParameter}
    (h : editLayer s l2q np a b c d L = some L')
    (hc1 : (strContains l2q "Convolution" && strContains L.type "Convolution") = false)
    (hc2 : (strContains l2q "InnerProduct" &&
      (strContains L.type "InnerProduct" || strContains L.type "FcRistretto")) = true)
    (hA : strContains np "Activations" = true) :
    ∃ il_i il_o, getIntegerLengthIn s L.name = some il_i ∧
      getIntegerLengthOut s L.name = some il_o ∧
      L'.quant.fl_layer_in = some (c - il_i) ∧ L'.quant.bw_layer_in = some c ∧
      L'.quant.fl_layer_out = some (d - il_o) ∧ L'.quant.bw_layer_out = some d := by
  unfold editLayer at h
  rw [hc1] at h
  simp only [Bool.false_eq_true, if_false] at h
  rw [if_pos hc2] at h
  exact fcBlock_acts_field s np b c d h hA

end EditLayerFields

/-! ### Score-accumulation lemmas -/

theorem get?_eq_some_getD : ∀ (l : List ℚ) (k : ℕ), k < l.length →
    l.get? k = some (l.getD k 0)
  | [], k, h => absurd h (by simp)
  | x :: xs, 0, _ => rfl
  | x :: xs, k + 1, h => get?_eq_some_getD xs k (by simpa using h)

theorem zipWith_add_get? : ∀ (l1 l2 : List ℚ) (k : ℕ) (x y : ℚ),
    l1.get? k = some x → l2.get? k = some y →
    (l1.zipWith (· + ·) l2).get? k = some (x + y)
  | [], _, k, x, y, hx, _ => absurd hx (by simp)
  | _ :: _, [], k, x, y, _, hy => absurd hy (by simp)
  | a :: t1, b :: t2, 0, x, y, hx, hy => by
    obtain rfl : a = x := by injection hx
    obtain rfl : b = y := by injection hy
    rfl
  | a :: t1, b :: t2, k + 1, x, y, hx, hy =>
    zipWith_add_get? t1 t2 k x y (by simpa using hx) (by simpa using hy)

/-- For equally long vectors the accumulation step is the point-wise sum. -/
theorem addScores_eq_zipWith {ts scores : List ℚ} (h : ts.length = scores.length) :
    addScores ts scores = ts.zipWith (· + ·) scores := by
  unfold addScores
  rw [← h, List.drop_length, List.append_nil]

/-- When every batch has the same output size `m`, the accumulated score
vector keeps size `m` after every positive number of batches. -/
theorem testScoreAfter_length (result : ℕ → List ℚ) (m : ℕ)
    (hlen : ∀ i, (result i).length = m) :
    ∀ n, 0 < n → (testScoreAfter result n).length = m := by
  intro n
  induction n with
  | zero => intro h; exact absurd h (by simp)
  | succ k ih =>
    intro _
    unfold testScoreAfter
    by_cases hk : k = 0
    · subst hk
      simp [hlen 0]
    · rw [if_neg hk, addScores_eq_zipWith (by rw [ih (Nat.pos_of_ne_zero hk), hlen k])]
      rw [List.length_zipWith, ih (Nat.pos_of_ne_zero hk), hlen k, Nat.min_self]

/-- After `n > 0` batches of equal size, position `k` of the accumulated
vector holds the sum over the batches of the score at position `k`. -/
theorem testScoreAfter_get? (result : ℕ → List ℚ) (m k : ℕ)
    (hlen : ∀ i, (result i).length = m) (hk : k < m) :
    ∀ n, 0 < n → (testScoreAfter result n).get? k =
      some (∑ i in Finset.range n, (result i).getD k 0) := by
  intro n
  induction n with
  | zero => intro h; exact absurd h (by simp)
  | succ j ih =>
    intro _
    unfold testScoreAfter
    by_cases hj : j = 0
    · subst hj
      rw [if_pos rfl, get?_eq_some_getD (result 0) k (by rw [hlen 0]; exact hk)]
      simp
    · rw [if_neg hj,
        addScores_eq_zipWith (by rw [testScoreAfter_length result m hlen j (Nat.pos_of_ne_zero hj), hlen j]),
        Finset.sum_range_succ]
      exact zipWith_add_get? _ _ k _ _ (ih (Nat.pos_of_ne_zero hj))
        (get?_eq_some_getD (result j) k (by rw [hlen j]; exact hk))

/-! ### Concrete example values used by the witnesses -/

/-- A two-layer statistics state: `conv1` with `il_in = 2`, `il_out = 1`,
`il_params = 3`; `fc1` with all three equal to `1`. -/
def exampleState : QState := ⟨["conv1", "fc1"], [2, 1], [1, 1], [3, 1]⟩

/-- A two-layer full-precision base description. -/
def exampleBase : List LayerParameter :=
  [{ name := "conv1", type := "Convolution", other := "conv-rest" },
   { name := "fc1", type := "InnerProduct", other := "fc-rest" }]

/-- `exampleBase` after the convolution-parameter edit at bit-width 8. -/
def exampleConvOut : List LayerParameter :=
  [{ name := "conv1", type := "ConvolutionRistretto",
     quant := { fl_params := some 5, bw_params := some 8 }, other := "conv-rest" },
   { name := "fc1", type := "InnerProduct", other := "fc-rest" }]

/-- `exampleBase` after the fully-connected-parameter edit at bit-width 8. -/
def exampleFcOut : List LayerParameter :=
  [{ name := "conv1", type := "Convolution", other := "conv-rest" },
   { name := "fc1", type := "FcRistretto",
     quant := { fl_params := some 7, bw_params := some 8 }, other := "fc-rest" }]

/-- `exampleBase` after the activations edit at bit-width 8. -/
def exampleActOut : List LayerParameter :=
  [{ name := "conv1", type := "ConvolutionRistretto",
     quant := { fl_layer_in := some 6, bw_layer_in := some 8,
                fl_layer_out := some 7, bw_layer_out := some 8 }, other := "conv-rest" },
   { name := "fc1", type := "FcRistretto",
     quant := { fl_layer_in := some 7, bw_layer_in := some 8,
                fl_layer_out := some 7, bw_layer_out := some 8 }, other := "fc-rest" }]

/-- `exampleBase` after the combined edit at bit-width 8 everywhere. -/
def exampleCombinedOut : List LayerParameter :=
  [{ name := "conv1", type := "ConvolutionRistretto",
     quant := { fl_params := some 5, bw_params := some 8,
                fl_layer_in := some 6, bw_layer_in := some 8,
                fl_layer_out := some 7, bw_layer_out := some 8 }, other := "conv-rest" },
   { name := "fc1", type := "FcRistretto",
     quant := { fl_params := some 7, bw_params := some 8,
                fl_layer_in := some 7, bw_layer_in := some 8,
                fl_layer_out := some 7, bw_layer_out := some 8 }, other := "fc-rest" }]

/-! ### Claim theorems -/

/-- Helper: `⌈log2(3 + 1e-8)⌉ = 2`. -/
theorem ceil_logb_three_eps : ⌈Real.logb 2 ((3:ℝ) + 1e-8)⌉ = 2 := by
  rw [Int.ceil_eq_iff]
  constructor
  · push_cast
    have h1 : (1:ℝ) < Real.logb 2 ((3:ℝ) + 1e-8) := by
      rw [Real.lt_logb_iff_rpow_lt (by norm_num) (by norm_num), Real.rpow_one]
      norm_num
    linarith
  · push_cast
    rw [Real.logb_le_iff_le_rpow (by norm_num) (by norm_num), Real.rpow_two]
    norm_num

/-- C1: the claim states that all three recorded maxima are converted with
`il = ceil(log2(max + 1e-8 + 1))`, always finite, including at `max = 0`.
Lines 157-158 (`il_in_`, `il_out_`) do implement exactly that formula (third
and fourth conjuncts, and the fifth and sixth show it is `1` at `max = 0`),
but line 159 (`il_params_`) adds `+1e-8+1` *outside* `log2`: at
`max_params = 2` (where `log2` is exact even in floating point) it produces
`3` while the claimed formula produces `2` (first and second conjuncts), and
at `max_params = 0` the C code takes `log2(0) = -inf`, which is not finite. -/
theorem quantC1 :
    il_params_entry 2 = 3 ∧ integer_length_claimed 2 = 2 ∧
    il_in_entry 2 = integer_length_claimed 2 ∧
    il_out_entry 2 = integer_length_claimed 2 ∧
    integer_length_claimed 0 = 1 ∧ il_in_entry 0 = 1 := by
  refine ⟨?_, ?_, rfl, rfl, ?_, ?_⟩
  · rw [il_params_entry, Real.logb_self_eq_one (by norm_num)]
    rw [Int.ceil_eq_iff]
    constructor <;> push_cast <;> norm_num
  · rw [integer_length_claimed, show (2:ℝ) + 1e-8 + 1 = (3:ℝ) + 1e-8 by ring]
    exact ceil_logb_three_eps
  · rw [integer_length_claimed]
    rw [Int.ceil_eq_iff]
    constructor
    · push_cast
      have : (0:ℝ) < Real.logb 2 ((0:ℝ) + 1e-8 + 1) := by
        apply Real.logb_pos (by norm_num)
        norm_num
      linarith
    · push_cast
      rw [Real.logb_le_iff_le_rpow (by norm_num) (by norm_num), Real.rpow_one]
      norm_num
  · rw [il_in_entry]
    rw [Int.ceil_eq_iff]
    constructor
    · push_cast
      have : (0:ℝ) < Real.logb 2 ((0:ℝ) + 1e-8 + 1) := by
        apply Real.logb_pos (by norm_num)
        norm_num
      linarith
    · push_cast
      rw [Real.logb_le_iff_le_rpow (by norm_num) (by norm_num), Real.rpow_one]
      norm_num

/-- C2: the claim states that each integer-length lookup fails with a
NotFound condition for an unknown layer name.  In the source the `std::find`
of lines 315/321/327 returns the end iterator for an unknown name, so `pos`
equals the size of the statistics vectors (first conjunct), and the
subsequent unchecked `operator[]` access at `pos` is out of range — the three
safe-indexed models return `none` because there is no recorded value at that
position; the C++ raises no NotFound condition there but performs an
out-of-range read (undefined behavior). -/
theorem quantC2 :
    (QState.layer_names ⟨["conv1"], [2], [1], [3]⟩).indexOf "fc1" =
      (QState.il_params ⟨["conv1"], [2], [1], [3]⟩).length ∧
    getIntegerLengthParams ⟨["conv1"], [2], [1], [3]⟩ "fc1" = none ∧
    getIntegerLengthIn ⟨["conv1"], [2], [1], [3]⟩ "fc1" = none ∧
    getIntegerLengthOut ⟨["conv1"], [2], [1], [3]⟩ "fc1" = none := by
  refine ⟨?_, ?_, ?_, ?_⟩ <;> decide

/-- C3 counterexample: with the unknown trimming mode `"unknown_mode"`, the
baseline forward pass (statistics collection included) lies strictly before
the fatal unknown-trimming-mode report in the `QuantizeNet` step sequence —
refuting the claim that no baseline forward pass or statistics collection
happens before the unknown trimming mode is reported. -/
theorem quantC3_counterexample :
    QuantizeNetEvent.runForwardBatchesBaseline ∈
      (quantizeNetTrace "unknown_mode").takeWhile
        (fun e => !(e == QuantizeNetEvent.fatalUnknownTrimmingMode)) ∧
    QuantizeNetEvent.fatalUnknownTrimmingMode ∈ quantizeNetTrace "unknown_mode" := by
  constructor <;> decide

/-- C3 (amended): an unknown trimming mode makes the run end in the fatal
unknown-trimming-mode report and no quantization step is performed, but the
report comes only after `CheckWritePermissions`, `SetGpu` and the baseline
forward pass with statistics collection have all run. -/
theorem quantC3 (trimming_mode : String) (h : trimming_mode ≠ "dynamic_fixed_point") :
    quantizeNetTrace trimming_mode =
      [QuantizeNetEvent.checkWritePermissions, QuantizeNetEvent.setGpu,
       QuantizeNetEvent.runForwardBatchesBaseline, QuantizeNetEvent.fatalUnknownTrimmingMode] ∧
    QuantizeNetEvent.quantize2DynamicFixedPoint ∉ quantizeNetTrace trimming_mode := by
  unfold quantizeNetTrace
  rw [if_neg h]
  exact ⟨rfl, by decide⟩

/-- Witness for C3 at the concrete trimming mode `"unknown_mode"`. -/
theorem quantC3_witness :
    quantizeNetTrace "unknown_mode" =
      [QuantizeNetEvent.checkWritePermissions, QuantizeNetEvent.setGpu,
       QuantizeNetEvent.runForwardBatchesBaseline, QuantizeNetEvent.fatalUnknownTrimmingMode] ∧
    QuantizeNetEvent.quantize2DynamicFixedPoint ∉ quantizeNetTrace "unknown_mode" :=
  quantC3 "unknown_mode" (by decide)

/-- C4: for every layer the edit quantizes, the fractional length written is
the given bit-width minus that layer's looked-up integer length, for each
quantized aspect (convolution/fully-connected parameters, input and output
activations), so `fractional_length + integer_length` reconstructs the
bit-width exactly. -/
theorem quantC4 (s : QState) (base out : List LayerParameter)
    (layers_2_quantize net_part : String) (bw_conv bw_fc bw_in bw_out : Int)
    (i : ℕ) (L L' : LayerParameter)
    (h : editNetDescriptionDynamicFixedPoint s layers_2_quantize net_part
      bw_conv bw_fc bw_in bw_out base = some out)
    (hL : base.get? i = some L) (hL' : out.get? i = some L') :
    ((strContains layers_2_quantize "Convolution" && strContains L.type "Convolution") = true →
      (strContains net_part "Parameters" = true →
        ∃ il, getIntegerLengthParams s L.name = some il ∧
          L'.quant.fl_params = some (bw_conv - il) ∧ L'.quant.bw_params = some bw_conv ∧
          (bw_conv - il) + il = bw_conv) ∧
      (strContains net_part "Activations" = true →
        ∃ il_i il_o, getIntegerLengthIn s L.name = some il_i ∧
          getIntegerLengthOut s L.name = some il_o ∧
          L'.quant.fl_layer_in = some (bw_in - il_i) ∧ L'.quant.bw_layer_in = some bw_in ∧
          L'.quant.fl_layer_out = some (bw_out - il_o) ∧ L'.quant.bw_layer_out = some bw_out ∧
          (bw_in - il_i) + il_i = bw_in ∧ (bw_out - il_o) + il_o = bw_out)) ∧
    ((strContains layers_2_quantize "Convolution" && strContains L.type "Convolution") = false →
     (strContains layers_2_quantize "InnerProduct" &&
       (strContains L.type "InnerProduct" || strContains L.type "FcRistretto")) = true →
      (strContains net_part "Parameters" = true →
        ∃ il, getIntegerLengthParams s L.name = some il ∧
          L'.quant.fl_params = some (bw_fc - il) ∧ L'.quant.bw_params = some bw_fc ∧
          (bw_fc - il) + il = bw_fc) ∧
      (strContains net_part "Activations" = true →
        ∃ il_i il_o, getIntegerLengthIn s L.name = some il_i ∧
          getIntegerLengthOut s L.name = some il_o ∧
          L'.quant.fl_layer_in = some (bw_in - il_i) ∧ L'.quant.bw_layer_in = some bw_in ∧
          L'.quant.fl_layer_out = some (bw_out - il_o) ∧ L'.quant.bw_layer_out = some bw_out ∧
          (bw_in - il_i) + il_i = bw_in ∧ (bw_out - il_o) + il_o = bw_out)) := by
  obtain ⟨L'', hout, hedit⟩ := editNet_get? s layers_2_quantize net_part bw_conv bw_fc bw_in bw_out
    base out h i L hL
  rw [hL'] at hout
  obtain rfl := Option.some.inj hout
  constructor
  · intro hc
    constructor
    · intro hP
      obtain ⟨il, hil, hfl, hbw⟩ := editLayer_conv_params_field s layers_2_quantize net_part
        bw_conv bw_fc bw_in bw_out hedit hc hP
      exact ⟨il, hil, hfl, hbw, by ring⟩
    · intro hA
      obtain ⟨il_i, il_o, hi, ho, h1, h2, h3, h4⟩ := editLayer_conv_acts_field s layers_2_quantize
        net_part bw_conv bw_fc bw_in bw_out hedit hc hA
      exact ⟨il_i, il_o, hi, ho, h1, h2, h3, h4, by ring, by ring⟩
  · intro hc1 hc2
    constructor
    · intro hP
      obtain ⟨il, hil, hfl, hbw⟩ := editLayer_fc_params_field s layers_2_quantize net_part
        bw_conv bw_fc bw_in bw_out hedit hc1 hc2 hP
      exact ⟨il, hil, hfl, hbw, by ring⟩
    · intro hA
      obtain ⟨il_i, il_o, hi, ho, h1, h2, h3, h4⟩ := editLayer_fc_acts_field s layers_2_quantize
        net_part bw_conv bw_fc bw_in bw_out hedit hc1 hc2 hA
      exact ⟨il_i, il_o, hi, ho, h1, h2, h3, h4, by ring, by ring⟩

/-- Witness for C4: the combined edit of `exampleBase` at bit-width 8; for
the convolution layer `conv1` (integer lengths 3/2/1) the written fractional
lengths are 5/6/7 and they reconstruct the bit-width 8. -/
theorem quantC4_witness :
    ((strContains "Convolution_and_InnerProduct" "Convolution" &&
        strContains "Convolution" "Convolution") = true →
      (strContains "Parameters_and_Activations" "Parameters" = true →
        ∃ il, getIntegerLengthParams exampleState "conv1" = some il ∧
          (some (5:ℤ) : Option Int) = some (8 - il) ∧
          (some (8:ℤ) : Option Int) = some 8 ∧ (8 - il) + il = 8) ∧
      (strContains "Parameters_and_Activations" "Activations" = true →
        ∃ il_i il_o, getIntegerLengthIn exampleState "conv1" = some il_i ∧
          getIntegerLengthOut exampleState "conv1" = some il_o ∧
          (some (6:ℤ) : Option Int) = some (8 - il_i) ∧
          (some (8:ℤ) : Option Int) = some 8 ∧
          (some (7:ℤ) : Option Int) = some (8 - il_o) ∧
          (some (8:ℤ) : Option Int) = some 8 ∧
          (8 - il_i) + il_i = 8 ∧ (8 - il_o) + il_o = 8)) ∧
    ((strContains "Convolution_and_InnerProduct" "Convolution" &&
        strContains "Convolution" "Convolution") = false →
     (strContains "Convolution_and_InnerProduct" "InnerProduct" &&
       (strContains "Convolution" "InnerProduct" || strContains "Convolution" "FcRistretto")) = true →
      (strContains "Parameters_and_Activations" "Parameters" = true →
        ∃ il, getIntegerLengthParams exampleState "conv1" = some il ∧
          (some (5:ℤ) : Option Int) = some (8 - il) ∧
          (some (8:ℤ) : Option Int) = some 8 ∧ (8 - il) + il = 8) ∧
      (strContains "Parameters_and_Activations" "Activations" = true →
        ∃ il_i il_o, getIntegerLengthIn exampleState "conv1" = some il_i ∧
          getIntegerLengthOut exampleState "conv1" = some il_o ∧
          (some (6:ℤ) : Option Int) = some (8 - il_i) ∧
          (some (8:ℤ) : Option Int) = some 8 ∧
          (some (7:ℤ) : Option Int) = some (8 - il_o) ∧
          (some (8:ℤ) : Option Int) = some 8 ∧
          (8 - il_i) + il_i = 8 ∧ (8 - il_o) + il_o = 8)) :=
  quantC4 exampleState exampleBase exampleCombinedOut "Convolution_and_InnerProduct"
    "Parameters_and_Activations" 8 8 8 8 0
    { name := "conv1", type := "Convolution", other := "conv-rest" }
    { name := "conv1", type := "ConvolutionRistretto",
      quant := { fl_params := some 5, bw_params := some 8,
                 fl_layer_in := some 6, bw_layer_in := some 8,
                 fl_layer_out := some 7, bw_layer_out := some 8 }, other := "conv-rest" }
    (by decide) (by decide) (by decide)

/-- C5: the claim states that `iterations = 0` is rejected as a configuration
error.  The code has no such check: with zero iterations the loop body never
runs, the accumulated `test_score` vector stays empty (first conjunct), and
line 148 reads `test_score[score_number]` from the empty vector — an
out-of-range access (modelled: the safe read yields `none`, second conjunct)
followed by a division by zero, not a rejection. -/
theorem quantC5 :
    testScoreAfter (fun _ => [(1:ℚ)]) 0 = [] ∧
    runForwardBatchesAccuracy (fun _ => [(1:ℚ)]) 0 0 = none :=
  ⟨rfl, rfl⟩

/-- C6: over `iterations > 0` equally sized batches, the evaluator
accumulates the scores position-wise (first batch initializes, later batches
add in place), divides by `iterations`, and reports the mean at the
designated output index; in particular for `iterations = 1` the reported
accuracy is that batch's raw score at the designated index divided by 1. -/
theorem quantC6 (result : ℕ → List ℚ) (m iterations score_number : ℕ)
    (hpos : 0 < iterations) (hlen : ∀ i, (result i).length = m)
    (hscore : score_number < m) :
    runForwardBatchesAccuracy result iterations score_number =
      some ((∑ i in Finset.range iterations, (result i).getD score_number 0) / (iterations : ℚ)) ∧
    (iterations = 1 →
      runForwardBatchesAccuracy result iterations score_number =
        some ((result 0).getD score_number 0 / 1)) := by
  have hmain : runForwardBatchesAccuracy result iterations score_number =
      some ((∑ i in Finset.range iterations, (result i).getD score_number 0) / (iterations : ℚ)) := by
    unfold runForwardBatchesAccuracy
    rw [testScoreAfter_get? result m score_number hlen hscore iterations hpos]
    rfl
  refine ⟨hmain, fun h1 => ?_⟩
  subst h1
  rw [hmain]
  simp

/-- Witness for C6: a single batch with outputs `[3, 2]`, designated index 0:
the reported accuracy is `3 / 1`. -/
theorem quantC6_witness :
    runForwardBatchesAccuracy (fun _ => [(3:ℚ), 2]) 1 0 =
      some ((∑ i in Finset.range 1, ((fun _ => [(3:ℚ), 2]) i).getD 0 0) / ((1:ℕ) : ℚ)) ∧
    ((1:ℕ) = 1 →
      runForwardBatchesAccuracy (fun _ => [(3:ℚ), 2]) 1 0 =
        some (((fun _ => [(3:ℚ), 2]) 0).getD 0 0 / 1)) :=
  quantC6 (fun _ => [(3:ℚ), 2]) 2 1 0 (by norm_num) (fun _ => rfl) (by norm_num)

/-- C7: each single-category candidate is a function of the freshly re-parsed
base description alone, and carries no quantization from any other candidate:
in the fully-connected-parameter candidate every convolution-typed layer is
returned unchanged (full precision); in the convolution-parameter candidate
every layer whose type does not mention `"Convolution"` is returned
unchanged; and the activations candidate never writes the parameter
quantization fields of any layer. -/
theorem quantC7 (s : QState) (base outFc outConv outAct : List LayerParameter)
    (bw_weights bw_weights2 bw_act : Int)
    (hfc : fcParamsCandidate s base bw_weights = some outFc)
    (hconv : convParamsCandidate s base bw_weights2 = some outConv)
    (hact : activationsCandidate s base bw_act = some outAct) :
    (∀ i L L', base.get? i = some L → outFc.get? i = some L' →
       strContains L.type "Convolution" = true → strContains L.type "InnerProduct" = false →
       strContains L.type "FcRistretto" = false → L' = L) ∧
    (∀ i L L', base.get? i = some L → outConv.get? i = some L' →
       strContains L.type "Convolution" = false → L' = L) ∧
    (∀ i L L', base.get? i = some L → outAct.get? i = some L' →
       L'.quant.fl_params = L.quant.fl_params ∧ L'.quant.bw_params = L.quant.bw_params) := by
  unfold fcParamsCandidate at hfc
  unfold convParamsCandidate at hconv
  unfold activationsCandidate at hact
  refine ⟨?_, ?_, ?_⟩
  · intro i L L' hL hL' hconvT hipF hfcrF
    obtain ⟨L'', hout, hedit⟩ := editNet_get? s "InnerProduct" "Parameters"
      (-1) bw_weights (-1) (-1) base outFc hfc i L hL
    rw [hL'] at hout
    obtain rfl := Option.some.inj hout
    have h1 : (strContains "InnerProduct" "Convolution" && strContains L.type "Convolution") = false := by
      rw [show strContains "InnerProduct" "Convolution" = false from by decide]
      simp
    have h2 : (strContains "InnerProduct" "InnerProduct" &&
        (strContains L.type "InnerProduct" || strContains L.type "FcRistretto")) = false := by
      rw [hipF, hfcrF]
      simp
    rw [editLayer_no_match s "InnerProduct" "Parameters" (-1) bw_weights (-1) (-1) h1 h2] at hedit
    exact (Option.some.inj hedit).symm
  · intro i L L' hL hL' hconvF
    obtain ⟨L'', hout, hedit⟩ := editNet_get? s "Convolution" "Parameters"
      bw_weights2 (-1) (-1) (-1) base outConv hconv i L hL
    rw [hL'] at hout
    obtain rfl := Option.some.inj hout
    have h1 : (strContains "Convolution" "Convolution" && strContains L.type "Convolution") = false := by
      rw [hconvF]
      simp
    have h2 : (strContains "Convolution" "InnerProduct" &&
        (strContains L.type "InnerProduct" || strContains L.type "FcRistretto")) = false := by
      rw [show strContains "Convolution" "InnerProduct" = false from by decide]
      simp
    rw [editLayer_no_match s "Convolution" "Parameters" bw_weights2 (-1) (-1) (-1) h1 h2] at hedit
    exact (Option.some.inj hedit).symm
  · intro i L L' hL hL'
    obtain ⟨L'', hout, hedit⟩ := editNet_get? s "Convolution_and_InnerProduct" "Activations"
      (-1) (-1) bw_act bw_act base outAct hact i L hL
    rw [hL'] at hout
    obtain rfl := Option.some.inj hout
    exact editLayer_no_params s "Convolution_and_InnerProduct" "Activations"
      (-1) (-1) bw_act bw_act hedit (by decide)

/-- Witness for C7: the three single-category candidates built from
`exampleBase` at bit-width 8. -/
theorem quantC7_witness :
    (∀ i L L', exampleBase.get? i = some L → exampleFcOut.get? i = some L' →
       strContains L.type "Convolution" = true → strContains L.type "InnerProduct" = false →
       strContains L.type "FcRistretto" = false → L' = L) ∧
    (∀ i L L', exampleBase.get? i = some L → exampleConvOut.get? i = some L' →
       strContains L.type "Convolution" = false → L' = L) ∧
    (∀ i L L', exampleBase.get? i = some L → exampleActOut.get? i = some L' →
       L'.quant.fl_params = L.quant.fl_params ∧ L'.quant.bw_params = L.quant.bw_params) :=
  quantC7 exampleState exampleBase exampleFcOut exampleConvOut exampleActOut 8 8 8
    (by decide) (by decide) (by decide)

/-- C8: the edit preserves the number (and order, by the position-wise
correspondence) of layers; a layer matching neither guard is returned
completely unchanged; and for every layer only the `type` and
quantization-config fields can change — `name` and all other descriptor
fields are preserved. -/
theorem quantC8 (s : QState) (base out : List LayerParameter)
    (layers_2_quantize net_part : String) (bw_conv bw_fc bw_in bw_out : Int)
    (i : ℕ) (L L' : LayerParameter)
    (h : editNetDescriptionDynamicFixedPoint s layers_2_quantize net_part
      bw_conv bw_fc bw_in bw_out base = some out)
    (hL : base.get? i = some L) (hL' : out.get? i = some L') :
    out.length = base.length ∧ L'.name = L.name ∧ L'.other = L.other ∧
    ((strContains layers_2_quantize "Convolution" && strContains L.type "Convolution") = false →
     (strContains layers_2_quantize "InnerProduct" &&
       (strContains L.type "InnerProduct" || strContains L.type "FcRistretto")) = false →
     L' = L) := by
  obtain ⟨L'', hout, hedit⟩ := editNet_get? s layers_2_quantize net_part bw_conv bw_fc bw_in bw_out
    base out h i L hL
  rw [hL'] at hout
  obtain rfl := Option.some.inj hout
  obtain ⟨hname, hother⟩ := editLayer_name_other s layers_2_quantize net_part
    bw_conv bw_fc bw_in bw_out hedit
  refine ⟨editNet_length s layers_2_quantize net_part bw_conv bw_fc bw_in bw_out base out h,
    hname, hother, ?_⟩
  intro h1 h2
  rw [editLayer_no_match s layers_2_quantize net_part bw_conv bw_fc bw_in bw_out h1 h2] at hedit
  exact (Option.some.inj hedit).symm

/-- Witness for C8: the convolution-parameter edit of `exampleBase` leaves
the non-matching layer `fc1` untouched and preserves layer count. -/
theorem quantC8_witness :
    exampleConvOut.length = exampleBase.length ∧
    ("fc1" : String) = "fc1" ∧ ("fc-rest" : String) = "fc-rest" ∧
    ((strContains "Convolution" "Convolution" && strContains "InnerProduct" "Convolution") = false →
     (strContains "Convolution" "InnerProduct" &&
       (strContains "InnerProduct" "InnerProduct" || strContains "InnerProduct" "FcRistretto")) = false →
     ({ name := "fc1", type := "InnerProduct", other := "fc-rest" } : LayerParameter) =
       { name := "fc1", type := "InnerProduct", other := "fc-rest" }) :=
  quantC8 exampleState exampleBase exampleConvOut "Convolution" "Parameters" 8 (-1) (-1) (-1) 1
    { name := "fc1", type := "InnerProduct", other := "fc-rest" }
    { name := "fc1", type := "InnerProduct", other := "fc-rest" }
    (by decide) (by decide) (by decide)

/-- C9: the candidate builder is deterministic — two runs of the description
edit on identical inputs produce identical outputs; the embedding of
`EditNetDescriptionDynamicFixedPoint` is a pure function of the statistics
state, the base description, the category/aspect strings and the bit-widths,
and the source consults no source of randomness. -/
theorem quantC9 (s : QState) (base : List LayerParameter)
    (layers_2_quantize net_part : String) (bw_conv bw_fc bw_in bw_out : Int)
    (r1 r2 : Option (List LayerParameter))
    (h1 : editNetDescriptionDynamicFixedPoint s layers_2_quantize net_part
      bw_conv bw_fc bw_in bw_out base = r1)
    (h2 : editNetDescriptionDynamicFixedPoint s layers_2_quantize net_part
      bw_conv bw_fc bw_in bw_out base = r2) :
    r1 = r2 := h1 ▸ h2

/-- Witness for C9: two runs of the convolution-parameter edit on
`exampleBase` both produce `exampleConvOut`. -/
theorem quantC9_witness :
    (some exampleConvOut : Option (List LayerParameter)) = some exampleConvOut :=
  quantC9 exampleState exampleBase "Convolution" "Parameters" 8 (-1) (-1) (-1)
    (some exampleConvOut) (some exampleConvOut) (by decide) (by decide)

/-- C10: the edit is idempotent — applying it a second time with the same
category, aspect, bit-widths and statistics state reproduces its output,
because the rewritten types `"ConvolutionRistretto"` / `"FcRistretto"` still
satisfy the same guards and all fields are rewritten with the same values. -/
theorem quantC10 (s : QState) (base out : List LayerParameter)
    (layers_2_quantize net_part : String) (bw_conv bw_fc bw_in bw_out : Int)
    (h : editNetDescriptionDynamicFixedPoint s layers_2_quantize net_part
      bw_conv bw_fc bw_in bw_out base = some out) :
    editNetDescriptionDynamicFixedPoint s layers_2_quantize net_part
      bw_conv bw_fc bw_in bw_out out = some out :=
  editNet_idem s layers_2_quantize net_part bw_conv bw_fc bw_in bw_out base out h

/-- Witness for C10: re-applying the combined edit to its own output
`exampleCombinedOut` reproduces it. -/
theorem quantC10_witness :
    editNetDescriptionDynamicFixedPoint exampleState "Convolution_and_InnerProduct"
      "Parameters_and_Activations" 8 8 8 8 exampleCombinedOut = some exampleCombinedOut :=
  quantC10 exampleState exampleBase exampleCombinedOut "Convolution_and_InnerProduct"
    "Parameters_and_Activations" 8 8 8 8 (by decide)
